import Mathlib

/-!
Shallow embedding of the todo-list task store and service
(`src/app/models.py`, `src/app/task_service.py`).

Modelling conventions:
* timestamps (`datetime.utcnow()`) are `Nat`; every mutating service
  operation takes the current clock reading `now` as an explicit argument,
  and claims about `updated_at` strictly increasing carry the hypothesis
  that the clock has advanced past the record's previous `updated_at`;
* dates (`datetime.date`) are `Nat` (only compared for presence here);
* the SQL store is a `List Task` in insertion (rowid) order together with
  the autoincrement counter `next_id`; `ORDER BY ... DESC` is embedded as a
  stable insertion sort by the descending key, matching SQLite's scan of
  rows in rowid order;
* pydantic validation of the `TaskCreate` / `TaskUpdate` schemas
  (`min_length` / `max_length` on `Field`) happens when the request object
  is constructed, before the service touches the store; it is embedded as
  the smart constructors `mkTaskCreate` / `mkTaskUpdate` returning
  `Except ValidationError _`;
* `TaskUpdate` in the source has every field `Optional` with
  `model_dump(exclude_unset=True)` deciding which fields are applied; a
  field is embedded as `Option v` where `none` means "not set in the
  request" (`due_date` is `Option (Option Nat)` since an update can set
  the date to null, which the edit dialog uses to clear it).
-/

namespace Todo

/-- `TaskPriority` enum from `models.py`: low, medium, high, urgent. -/
inductive TaskPriority where
  | low
  | medium
  | high
  | urgent
deriving DecidableEq, Repr

/-- Persisted `Task` row from `models.py` (id assigned by the store). -/
structure Task where
  id : Nat
  title : String
  description : String
  completed : Bool
  priority : TaskPriority
  due_date : Option Nat
  created_at : Nat
  updated_at : Nat
deriving DecidableEq, Repr

/-- The tasks table: rows in insertion (rowid) order plus the
autoincrement counter that assigns primary keys. -/
structure TaskStore where
  tasks : List Task
  next_id : Nat
deriving DecidableEq, Repr

/-- Validated `TaskCreate` schema from `models.py` (defaults already
filled in by pydantic: description `""`, priority `medium`). -/
structure TaskCreate where
  title : String
  description : String
  priority : TaskPriority
  due_date : Option Nat
deriving DecidableEq, Repr

/-- Validated `TaskUpdate` schema from `models.py`; `none` in a field
means the field was not set in the request (`exclude_unset`). -/
structure TaskUpdate where
  title : Option String
  description : Option String
  completed : Option Bool
  priority : Option TaskPriority
  due_date : Option (Option Nat)
deriving DecidableEq, Repr

/-- Pydantic validation failure on a field constraint. -/
inductive ValidationError where
  | titleLength
  | descriptionLength
deriving DecidableEq, Repr

/-- `title: str = Field(max_length=200, min_length=1)`. -/
def titleValid (s : String) : Bool :=
  decide (1 ≤ s.length ∧ s.length ≤ 200)

/-- `description: str = Field(default="", max_length=1000)`. -/
def descriptionValid (s : String) : Bool :=
  decide (s.length ≤ 1000)

/-- Constructing a `TaskCreate` (pydantic validation at instantiation):
optional description defaults to `""`, optional priority to `medium`;
title length 1-200 and description length at most 1000 are enforced. -/
def mkTaskCreate (title : String) (descr : Option String)
    (prio : Option TaskPriority) (due : Option Nat) :
    Except ValidationError TaskCreate :=
  let d := descr.getD ""
  if titleValid title then
    if descriptionValid d then
      Except.ok ⟨title, d, prio.getD TaskPriority.medium, due⟩
    else Except.error ValidationError.descriptionLength
  else Except.error ValidationError.titleLength

/-- Constructing a `TaskUpdate` (pydantic validation at instantiation):
a set title must have length 1-200, a set description length at most
1000; unset fields (`none`) are not validated. -/
def mkTaskUpdate (title descr : Option String) (compl : Option Bool)
    (prio : Option TaskPriority) (due : Option (Option Nat)) :
    Except ValidationError TaskUpdate :=
  if title.all titleValid then
    if descr.all descriptionValid then
      Except.ok ⟨title, descr, compl, prio, due⟩
    else Except.error ValidationError.descriptionLength
  else Except.error ValidationError.titleLength

/-- `TaskService.create_task`: builds a `Task` from the validated
request (`completed` and the two timestamps from the model's defaults:
`completed=False`, both timestamp default factories reading the clock at
creation), inserts it with the next primary key, and returns the stored
row. -/
def create_task (st : TaskStore) (now : Nat) (data : TaskCreate) :
    Task × TaskStore :=
  let task : Task :=
    { id := st.next_id
      title := data.title
      description := data.description
      completed := false
      priority := data.priority
      due_date := data.due_date
      created_at := now
      updated_at := now }
  (task, ⟨st.tasks ++ [task], st.next_id + 1⟩)

/-- The create pipeline as the UI drives it: validate the request fields
into a `TaskCreate`, then `create_task`; a `ValidationError` is raised
before the service runs, leaving the store untouched. -/
def create_task_checked (st : TaskStore) (now : Nat) (title : String)
    (descr : Option String) (prio : Option TaskPriority)
    (due : Option Nat) : Except ValidationError Task × TaskStore :=
  match mkTaskCreate title descr prio due with
  | Except.error e => (Except.error e, st)
  | Except.ok data =>
      let r := create_task st now data
      (Except.ok r.1, r.2)

/-- `TaskService.get_task`: `session.get(Task, task_id)`, fetch by
primary key, `None` when absent. -/
def get_task (st : TaskStore) (task_id : Nat) : Option Task :=
  st.tasks.find? (fun t => t.id == task_id)

/-- The `setattr` loop of `TaskService.update_task` followed by
`task.updated_at = datetime.utcnow()`: apply exactly the fields set in
the request, keep the rest, refresh `updated_at`. -/
def applyUpdate (data : TaskUpdate) (t : Task) (now : Nat) : Task :=
  { t with
    title := data.title.getD t.title
    description := data.description.getD t.description
    completed := data.completed.getD t.completed
    priority := data.priority.getD t.priority
    due_date := data.due_date.getD t.due_date
    updated_at := now }

/-- Replace the row with the given primary key (what committing the
mutated fetched row does). -/
def storeReplace (st : TaskStore) (task_id : Nat) (t : Task) : TaskStore :=
  ⟨st.tasks.map (fun u => if u.id == task_id then t else u), st.next_id⟩

/-- `TaskService.update_task`: `None` and no mutation when the id is
absent; otherwise apply the set fields, refresh `updated_at`, persist,
and return the updated row. -/
def update_task (st : TaskStore) (now : Nat) (task_id : Nat)
    (data : TaskUpdate) : Option Task × TaskStore :=
  match get_task st task_id with
  | none => (none, st)
  | some t =>
      let t := applyUpdate data t now
      (some t, storeReplace st task_id t)

/-- `TaskService.toggle_completed`: `None` and no mutation when the id
is absent; otherwise flip `completed`, refresh `updated_at`, persist,
and return the row. -/
def toggle_completed (st : TaskStore) (now : Nat) (task_id : Nat) :
    Option Task × TaskStore :=
  match get_task st task_id with
  | none => (none, st)
  | some t =>
      let t := { t with completed := !t.completed, updated_at := now }
      (some t, storeReplace st task_id t)

/-- `TaskService.delete_task`: `False` and no mutation when the id is
absent; otherwise remove the row with that primary key and return
`True`. -/
def delete_task (st : TaskStore) (task_id : Nat) : Bool × TaskStore :=
  match get_task st task_id with
  | none => (false, st)
  | some _ => (true, ⟨st.tasks.filter (fun t => !(t.id == task_id)), st.next_id⟩)

/-- `ORDER BY created_at DESC`: later rows first, ties in rowid
(insertion) order. -/
def createdDesc (a b : Task) : Prop :=
  b.created_at ≤ a.created_at

/-- `ORDER BY updated_at DESC`: later-touched rows first. -/
def updatedDesc (a b : Task) : Prop :=
  b.updated_at ≤ a.updated_at

instance : DecidableRel createdDesc :=
  fun a b => inferInstanceAs (Decidable (b.created_at ≤ a.created_at))

instance : DecidableRel updatedDesc :=
  fun a b => inferInstanceAs (Decidable (b.updated_at ≤ a.updated_at))

instance : IsTotal Task createdDesc :=
  ⟨fun a b => (Nat.le_total b.created_at a.created_at).imp id id⟩

instance : IsTrans Task createdDesc :=
  ⟨fun _ _ _ hab hbc => Nat.le_trans hbc hab⟩

instance : IsTotal Task updatedDesc :=
  ⟨fun a b => (Nat.le_total b.updated_at a.updated_at).imp id id⟩

instance : IsTrans Task updatedDesc :=
  ⟨fun _ _ _ hab hbc => Nat.le_trans hbc hab⟩

/-- `TaskService.get_all_tasks`:
`select(Task).order_by(desc(Task.created_at))` over the table scan. -/
def get_all_tasks (st : TaskStore) : List Task :=
  List.insertionSort createdDesc st.tasks

/-- `TaskService.get_completed_tasks`:
`select(Task).where(Task.completed).order_by(desc(Task.updated_at))`. -/
def get_completed_tasks (st : TaskStore) : List Task :=
  List.insertionSort updatedDesc (st.tasks.filter (fun t => t.completed))

/-- `TaskService.get_pending_tasks`:
`select(Task).where(Task.completed == False).order_by(desc(Task.created_at))`. -/
def get_pending_tasks (st : TaskStore) : List Task :=
  List.insertionSort createdDesc (st.tasks.filter (fun t => !t.completed))

/-- Primary-key discipline of the store: every stored row's id is below
the autoincrement counter (so ids are fresh) and ids are unique. -/
def WFStore (st : TaskStore) : Prop :=
  (∀ t ∈ st.tasks, t.id < st.next_id) ∧
    st.tasks.Pairwise (fun a b => a.id ≠ b.id)

/-- The update pipeline as the UI drives it: validate the request fields
into a `TaskUpdate`, then `update_task`; a `ValidationError` is raised
before the service touches the store. -/
def update_task_checked (st : TaskStore) (now task_id : Nat)
    (title descr : Option String) (compl : Option Bool)
    (prio : Option TaskPriority) (due : Option (Option Nat)) :
    Except ValidationError (Option Task) × TaskStore :=
  match mkTaskUpdate title descr compl prio due with
  | Except.error e => (Except.error e, st)
  | Except.ok data =>
      let r := update_task st now task_id data
      (Except.ok r.1, r.2)

/-- Committing a fetched-and-mutated row keeps it findable by its
primary key: replacing every row matching `p` by a row that matches `p`
leaves `find? p` pointing at the replacement, provided some row matched. -/
theorem find?_map_if (p : Task → Bool) (t2 : Task) (hp : p t2 = true) :
    ∀ l : List Task, (l.find? p).isSome = true →
      (l.map (fun u => if p u then t2 else u)).find? p = some t2
  | [], h => by simp at h
  | a :: l, h => by
    by_cases ha : p a = true
    · simp [ha, hp]
    · have hmem : (l.find? p).isSome = true := by
        rw [List.find?_cons_of_neg _ ha] at h
        exact h
      have ih := find?_map_if p t2 hp l hmem
      simp only [List.map_cons, if_neg ha]
      rw [List.find?_cons_of_neg _ ha, ih]

/-- `get_task` after `storeReplace` by the same primary key. -/
theorem get_task_storeReplace (st : TaskStore) (task_id : Nat) (t2 : Task)
    (hid : (t2.id == task_id) = true)
    (hex : (get_task st task_id).isSome = true) :
    get_task (storeReplace st task_id t2) task_id = some t2 :=
  find?_map_if (fun u => u.id == task_id) t2 hid st.tasks hex

/-- Splitting a list by a boolean predicate is a permutation of the
list. -/
theorem filter_append_not_perm (p : Task → Bool) :
    ∀ l : List Task, (l.filter p ++ l.filter (fun a => !p a)).Perm l
  | [] => by simp
  | a :: l => by
    by_cases h : p a = true
    · simpa [List.filter_cons, h] using (filter_append_not_perm p l).cons a
    · have hb : p a = false := by simpa using h
      simp only [List.filter_cons, hb, Bool.not_false, if_pos, cond_false,
        cond_true]
      exact List.perm_middle.trans ((filter_append_not_perm p l).cons a)

/-- `orderedInsert` by descending `created_at` keeps the relative order
of rows with any fixed `created_at` value: the inserted row lands in
front of exactly the rows with strictly smaller key, so the filter at
one key value gains the new row at the front when the key matches and is
untouched otherwise. -/
theorem filter_created_orderedInsert (c : Nat) (a : Task) :
    ∀ l : List Task,
      (List.orderedInsert createdDesc a l).filter
          (fun x => x.created_at == c) =
        if a.created_at == c then
          a :: l.filter (fun x => x.created_at == c)
        else l.filter (fun x => x.created_at == c)
  | [] => by
    by_cases hc : (a.created_at == c) = true <;>
      simp [List.orderedInsert, List.filter, hc]
  | b :: l => by
    by_cases hab : createdDesc a b
    · rw [List.orderedInsert_of_le _ _ hab]
      by_cases hc : (a.created_at == c) = true <;>
        simp [List.filter_cons, hc]
    · have hlt : a.created_at < b.created_at := by
        simpa [createdDesc, Nat.not_le] using hab
      have ih := filter_created_orderedInsert c a l
      simp only [List.orderedInsert, if_neg hab, List.filter_cons, ih]
      by_cases hbc : (b.created_at == c) = true
      · have hb : b.created_at = c := by simpa using hbc
        have hac : (a.created_at == c) = false := by
          simp [Nat.ne_of_lt (hb ▸ hlt)]
        simp [hbc, hac]
      · simp [hbc]

/-- Insertion sort by descending `created_at` is stable: the rows at any
fixed `created_at` value appear in the same order as in the input. -/
theorem filter_created_insertionSort (c : Nat) :
    ∀ l : List Task,
      (List.insertionSort createdDesc l).filter
          (fun x => x.created_at == c) =
        l.filter (fun x => x.created_at == c)
  | [] => rfl
  | a :: l => by
    have ih := filter_created_insertionSort c l
    simp only [List.insertionSort, filter_created_orderedInsert, ih,
      List.filter_cons]

/-- A row returned by `get_task` carries the looked-up primary key. -/
theorem get_task_id (st : TaskStore) (task_id : Nat) (t : Task)
    (hget : get_task st task_id = some t) : (t.id == task_id) = true := by
  unfold get_task at hget
  have h := List.find?_some (p := fun u => u.id == task_id) (a := t) hget
  exact h

/-- `update_task` on a present id: unfolded result. -/
theorem update_task_found (st : TaskStore) (now task_id : Nat) (t : Task)
    (data : TaskUpdate) (hget : get_task st task_id = some t) :
    update_task st now task_id data =
      (some (applyUpdate data t now),
        storeReplace st task_id (applyUpdate data t now)) := by
  unfold update_task
  rw [hget]

/-- Concrete row used to instantiate the claims below. -/
def taskW : Task :=
  { id := 1
    title := "Buy milk"
    description := ""
    completed := false
    priority := TaskPriority.medium
    due_date := none
    created_at := 1
    updated_at := 1 }

/-- Concrete one-row store used to instantiate the claims below. -/
def storeW : TaskStore := ⟨[taskW], 2⟩

/-- C1: for every valid create request (title length 1-200, description
length 0-1000), `create` returns a Task with a freshly assigned unique
id, `completed = false`, priority defaulted to `medium` when the request
omits it, and `created_at` equal to `updated_at`. -/
theorem claim1_create_valid (st : TaskStore) (now : Nat) (title : String)
    (descr : Option String) (prio : Option TaskPriority) (due : Option Nat)
    (ht : titleValid title = true)
    (hd : descriptionValid (descr.getD "") = true)
    (hwf : ∀ u ∈ st.tasks, u.id < st.next_id) :
    ∃ task st2,
      create_task_checked st now title descr prio due =
        (Except.ok task, st2) ∧
      task.id = st.next_id ∧
      (∀ u ∈ st.tasks, u.id ≠ task.id) ∧
      task.completed = false ∧
      (prio = none → task.priority = TaskPriority.medium) ∧
      task.created_at = task.updated_at ∧
      st2.tasks = st.tasks ++ [task] := by
  have hmk : mkTaskCreate title descr prio due =
      Except.ok ⟨title, descr.getD "", prio.getD TaskPriority.medium, due⟩ := by
    simp [mkTaskCreate, ht, hd]
  refine ⟨(create_task st now
      ⟨title, descr.getD "", prio.getD TaskPriority.medium, due⟩).1,
    (create_task st now
      ⟨title, descr.getD "", prio.getD TaskPriority.medium, due⟩).2,
    ?_, rfl, ?_, rfl, ?_, rfl, rfl⟩
  · unfold create_task_checked
    rw [hmk]
  · intro u hu
    have := hwf u hu
    show u.id ≠ st.next_id
    omega
  · intro hp
    subst hp
    rfl

/-- C1 witness: a concrete valid request on the empty store. -/
theorem claim1_witness :
    ∃ task st2,
      create_task_checked ⟨[], 1⟩ 5 "Buy milk" none none none =
        (Except.ok task, st2) ∧
      task.id = 1 ∧
      (∀ u ∈ ([] : List Task), u.id ≠ task.id) ∧
      task.completed = false ∧
      ((none : Option TaskPriority) = none →
        task.priority = TaskPriority.medium) ∧
      task.created_at = task.updated_at ∧
      st2.tasks = [] ++ [task] :=
  claim1_create_valid ⟨[], 1⟩ 5 "Buy milk" none none none (by decide)
    (by decide) (by simp)

/-- C2: for every create request whose title has length 0 or above 200,
or whose description has length above 1000, `create` fails with
`ValidationError` and no record is persisted: the store is unchanged,
its size included. -/
theorem claim2_create_invalid (st : TaskStore) (now : Nat) (title : String)
    (descr : Option String) (prio : Option TaskPriority) (due : Option Nat)
    (h : title.length = 0 ∨ 200 < title.length ∨
      1000 < (descr.getD "").length) :
    (∃ e, (create_task_checked st now title descr prio due).1 =
      Except.error e) ∧
    (create_task_checked st now title descr prio due).2 = st ∧
    (create_task_checked st now title descr prio due).2.tasks.length =
      st.tasks.length := by
  by_cases ht : titleValid title = true
  · have hlen := of_decide_eq_true ht
    have hd : descriptionValid (descr.getD "") = false := by
      rcases h with h | h | h
      · omega
      · omega
      · simp only [descriptionValid, decide_eq_false_iff_not]
        omega
    have hmk : mkTaskCreate title descr prio due =
        Except.error ValidationError.descriptionLength := by
      simp [mkTaskCreate, ht, hd]
    unfold create_task_checked
    rw [hmk]
    exact ⟨⟨_, rfl⟩, rfl, rfl⟩
  · have ht2 : titleValid title = false := eq_false_of_ne_true ht
    have hmk : mkTaskCreate title descr prio due =
        Except.error ValidationError.titleLength := by
      simp [mkTaskCreate, ht2]
    unfold create_task_checked
    rw [hmk]
    exact ⟨⟨_, rfl⟩, rfl, rfl⟩

/-- C2 witness: the empty title on the one-row store. -/
theorem claim2_witness :
    (∃ e, (create_task_checked storeW 5 "" none none none).1 =
      Except.error e) ∧
    (create_task_checked storeW 5 "" none none none).2 = storeW ∧
    (create_task_checked storeW 5 "" none none none).2.tasks.length =
      storeW.tasks.length :=
  claim2_create_invalid storeW 5 "" none none none (Or.inl rfl)

/-- C8: `list_all` returns every stored task ordered by `created_at`
descending, ties broken by insertion order (the filter at any fixed
`created_at` value is unchanged, i.e. the sort is stable), and on an
empty store it returns the empty sequence. -/
theorem claim8_list_all (st : TaskStore) :
    (get_all_tasks st).Perm st.tasks ∧
    List.Sorted createdDesc (get_all_tasks st) ∧
    (∀ c, (get_all_tasks st).filter (fun t => t.created_at == c) =
      st.tasks.filter (fun t => t.created_at == c)) ∧
    ∀ n, get_all_tasks ⟨[], n⟩ = [] :=
  ⟨List.perm_insertionSort _ _, List.sorted_insertionSort _ _,
    fun c => filter_created_insertionSort c st.tasks, fun _ => rfl⟩

/-- C8 witness: instantiation at the one-row store. -/
theorem claim8_witness :
    (get_all_tasks storeW).Perm storeW.tasks ∧
    List.Sorted createdDesc (get_all_tasks storeW) ∧
    (∀ c, (get_all_tasks storeW).filter (fun t => t.created_at == c) =
      storeW.tasks.filter (fun t => t.created_at == c)) ∧
    ∀ n, get_all_tasks ⟨[], n⟩ = [] :=
  claim8_list_all storeW

/-- C5: for an absent id, `get`, `update` and `toggle_completed` return
`none` without raising and leave the store unmutated, and `delete`
returns `false`; for a present id, `delete` returns `true` and a
subsequent `get` of that id returns `none`. -/
theorem claim5_not_found (st : TaskStore) (task_id : Nat) :
    (get_task st task_id = none →
      (∀ now data, update_task st now task_id data = (none, st)) ∧
      (∀ now, toggle_completed st now task_id = (none, st)) ∧
      delete_task st task_id = (false, st)) ∧
    ∀ t, get_task st task_id = some t →
      (delete_task st task_id).1 = true ∧
      get_task (delete_task st task_id).2 task_id = none := by
  constructor
  · intro h
    refine ⟨fun now data => ?_, fun now => ?_, ?_⟩ <;>
      simp [update_task, toggle_completed, delete_task, h]
  · intro t h
    constructor
    · simp [delete_task, h]
    · simp only [delete_task, h]
      unfold get_task
      simp only [List.find?_eq_none]
      intro x hx
      have hmem := (List.mem_filter.mp hx).2
      simp only [Bool.not_eq_true'] at hmem
      simp [hmem]

/-- C5 witness: id 9 is absent from the one-row store, id 1 present. -/
theorem claim5_witness :
    (delete_task storeW 9 = (false, storeW) ∧
      toggle_completed storeW 4 9 = (none, storeW)) ∧
    (delete_task storeW 1).1 = true ∧
    get_task (delete_task storeW 1).2 1 = none :=
  ⟨⟨((claim5_not_found storeW 9).1 rfl).2.2,
      ((claim5_not_found storeW 9).1 rfl).2.1 4⟩,
    (claim5_not_found storeW 1).2 taskW rfl⟩

/-- C3: `update` with a request that sets only the title changes only
`title` and `updated_at` of an existing task; every other field keeps
its prior value and the new `updated_at` is strictly greater than the
prior one (the clock having advanced past it). -/
theorem claim3_update_title_frame (st : TaskStore) (now task_id : Nat)
    (t : Task) (x : String)
    (hget : get_task st task_id = some t) (hclock : t.updated_at < now) :
    ∃ r st2,
      update_task st now task_id ⟨some x, none, none, none, none⟩ =
        (some r, st2) ∧
      r.title = x ∧ r.id = t.id ∧ r.description = t.description ∧
      r.completed = t.completed ∧ r.priority = t.priority ∧
      r.due_date = t.due_date ∧ r.created_at = t.created_at ∧
      r.updated_at = now ∧ t.updated_at < r.updated_at ∧
      get_task st2 task_id = some r := by
  refine ⟨applyUpdate ⟨some x, none, none, none, none⟩ t now, _,
    update_task_found st now task_id t _ hget, rfl, rfl, rfl, rfl, rfl, rfl,
    rfl, rfl, hclock, ?_⟩
  apply get_task_storeReplace
  · exact get_task_id st task_id t hget
  · rw [hget]
    rfl

/-- C3 witness: retitling the one concrete row. -/
theorem claim3_witness :
    ∃ r st2,
      update_task storeW 4 1 ⟨some "Ship", none, none, none, none⟩ =
        (some r, st2) ∧
      r.title = "Ship" ∧ r.id = taskW.id ∧
      r.description = taskW.description ∧
      r.completed = taskW.completed ∧ r.priority = taskW.priority ∧
      r.due_date = taskW.due_date ∧ r.created_at = taskW.created_at ∧
      r.updated_at = 4 ∧ taskW.updated_at < r.updated_at ∧
      get_task st2 1 = some r :=
  claim3_update_title_frame storeW 4 1 taskW "Ship" rfl (by decide)

/-- C4: for an existing task, an update request whose set title has
length 0 or above 200, or whose set description has length above 1000,
is rejected with a `ValidationError` before any persistence: the store
comes back unchanged. -/
theorem claim4_update_revalidates (st : TaskStore) (now task_id : Nat)
    (t : Task) (title descr : Option String) (compl : Option Bool)
    (prio : Option TaskPriority) (due : Option (Option Nat))
    (_hget : get_task st task_id = some t)
    (h : (∃ s, title = some s ∧ (s.length = 0 ∨ 200 < s.length)) ∨
      ∃ s, descr = some s ∧ 1000 < s.length) :
    ∃ e, update_task_checked st now task_id title descr compl prio due =
      (Except.error e, st) := by
  by_cases ht : title.all titleValid = true
  · have hd : descr.all descriptionValid = false := by
      rcases h with ⟨s, hs, hlen⟩ | ⟨s, hs, hlen⟩
      · exfalso
        subst hs
        simp only [Option.all_some, titleValid, decide_eq_true_eq] at ht
        omega
      · subst hs
        simp only [Option.all_some, descriptionValid,
          decide_eq_false_iff_not]
        omega
    have hmk : mkTaskUpdate title descr compl prio due =
        Except.error ValidationError.descriptionLength := by
      simp [mkTaskUpdate, ht, hd]
    refine ⟨ValidationError.descriptionLength, ?_⟩
    unfold update_task_checked
    rw [hmk]
  · have ht2 : title.all titleValid = false := eq_false_of_ne_true ht
    have hmk : mkTaskUpdate title descr compl prio due =
        Except.error ValidationError.titleLength := by
      simp [mkTaskUpdate, ht2]
    refine ⟨ValidationError.titleLength, ?_⟩
    unfold update_task_checked
    rw [hmk]

/-- C4 witness: an empty-title update against the concrete row. -/
theorem claim4_witness :
    ∃ e, update_task_checked storeW 4 1 (some "") none none none none =
      (Except.error e, storeW) :=
  claim4_update_revalidates storeW 4 1 taskW (some "") none none none none
    rfl (Or.inl ⟨"", rfl, Or.inl rfl⟩)

/-- C6: applying `toggle_completed` twice to an existing task returns
its `completed` flag to the original value, while each of the two calls
strictly increases `updated_at` (the clock advancing across the
calls). -/
theorem claim6_toggle_twice (st : TaskStore) (task_id : Nat) (t : Task)
    (n1 n2 : Nat) (hget : get_task st task_id = some t)
    (h1 : t.updated_at < n1) (h2 : n1 < n2) :
    ∃ u1 st1 u2 st2,
      toggle_completed st n1 task_id = (some u1, st1) ∧
      toggle_completed st1 n2 task_id = (some u2, st2) ∧
      u2.completed = t.completed ∧
      t.updated_at < u1.updated_at ∧ u1.updated_at < u2.updated_at := by
  have hid := get_task_id st task_id t hget
  have e1 : toggle_completed st n1 task_id =
      (some { t with completed := !t.completed, updated_at := n1 },
        storeReplace st task_id
          { t with completed := !t.completed, updated_at := n1 }) := by
    unfold toggle_completed
    rw [hget]
  have hget1 : get_task
      (storeReplace st task_id
        { t with completed := !t.completed, updated_at := n1 }) task_id =
      some { t with completed := !t.completed, updated_at := n1 } := by
    apply get_task_storeReplace
    · exact hid
    · rw [hget]
      rfl
  have e2 : toggle_completed
      (storeReplace st task_id
        { t with completed := !t.completed, updated_at := n1 }) n2 task_id =
      (some { t with completed := !(!t.completed), updated_at := n2 },
        storeReplace
          (storeReplace st task_id
            { t with completed := !t.completed, updated_at := n1 })
          task_id
          { t with completed := !(!t.completed), updated_at := n2 }) := by
    unfold toggle_completed
    rw [hget1]
  refine ⟨_, _, _, _, e1, e2, ?_, h1, h2⟩
  exact Bool.not_not t.completed

/-- C6 witness: toggling the concrete row at times 2 and 3. -/
theorem claim6_witness :
    ∃ u1 st1 u2 st2,
      toggle_completed storeW 2 1 = (some u1, st1) ∧
      toggle_completed st1 3 1 = (some u2, st2) ∧
      u2.completed = taskW.completed ∧
      taskW.updated_at < u1.updated_at ∧ u1.updated_at < u2.updated_at :=
  claim6_toggle_twice storeW 1 taskW 2 3 rfl (by decide) (by decide)

/-- C7: `list_completed` is exactly the completed tasks ordered by
`updated_at` descending, `list_pending` exactly the non-completed ones
ordered by `created_at` descending, and together they partition
`list_all` with no overlap and no omission. -/
theorem claim7_partition (st : TaskStore) :
    (∀ t, t ∈ get_completed_tasks st ↔
      t ∈ st.tasks ∧ t.completed = true) ∧
    List.Sorted updatedDesc (get_completed_tasks st) ∧
    (∀ t, t ∈ get_pending_tasks st ↔
      t ∈ st.tasks ∧ t.completed = false) ∧
    List.Sorted createdDesc (get_pending_tasks st) ∧
    (get_completed_tasks st ++ get_pending_tasks st).Perm
      (get_all_tasks st) ∧
    ∀ t ∈ get_completed_tasks st, t ∉ get_pending_tasks st := by
  have hcm : ∀ t, t ∈ get_completed_tasks st ↔
      t ∈ st.tasks ∧ t.completed = true := by
    intro t
    simp [get_completed_tasks, List.mem_filter]
  have hpm : ∀ t, t ∈ get_pending_tasks st ↔
      t ∈ st.tasks ∧ t.completed = false := by
    intro t
    simp [get_pending_tasks, List.mem_filter]
  refine ⟨hcm, List.sorted_insertionSort _ _, hpm,
    List.sorted_insertionSort _ _, ?_, ?_⟩
  · have h1 : (get_completed_tasks st).Perm
        (st.tasks.filter fun t => t.completed) :=
      List.perm_insertionSort _ _
    have h2 : (get_pending_tasks st).Perm
        (st.tasks.filter fun t => !t.completed) :=
      List.perm_insertionSort _ _
    have h3 := filter_append_not_perm (fun t => t.completed) st.tasks
    have h4 : st.tasks.Perm (get_all_tasks st) :=
      (List.perm_insertionSort _ _).symm
    exact ((h1.append h2).trans h3).trans h4
  · intro t hc hp
    have hc2 := (hcm t).mp hc
    have hp2 := (hpm t).mp hp
    rw [hc2.2] at hp2
    simp at hp2

/-- C7 witness: instantiation at the one-row store (the row pending),
with the overlap clause applied to its row. -/
theorem claim7_witness :
    ((get_completed_tasks storeW ++ get_pending_tasks storeW).Perm
      (get_all_tasks storeW)) ∧
    (taskW ∈ storeW.tasks ∧ taskW.completed = false) :=
  ⟨(claim7_partition storeW).2.2.2.2.1,
    ((claim7_partition storeW).2.2.1 taskW).mp (by simp [get_pending_tasks,
      storeW, taskW, List.insertionSort])⟩

/-- C9: the update request shape has an optional `completed` field, and
`update` with a request that sets `completed` changes the stored task's
flag to the given value. -/
theorem claim9_update_completed (st : TaskStore) (now task_id : Nat)
    (t : Task) (b : Bool) (hget : get_task st task_id = some t) :
    ∃ r st2,
      update_task st now task_id ⟨none, none, some b, none, none⟩ =
        (some r, st2) ∧
      r.completed = b ∧
      get_task st2 task_id = some r := by
  refine ⟨applyUpdate ⟨none, none, some b, none, none⟩ t now, _,
    update_task_found st now task_id t _ hget, rfl, ?_⟩
  apply get_task_storeReplace
  · exact get_task_id st task_id t hget
  · rw [hget]
    rfl

/-- C9 witness: marking the concrete row completed through `update`. -/
theorem claim9_witness :
    ∃ r st2,
      update_task storeW 4 1 ⟨none, none, some true, none, none⟩ =
        (some r, st2) ∧
      r.completed = true ∧
      get_task st2 1 = some r :=
  claim9_update_completed storeW 4 1 taskW true rfl

/-- C10: `update` with a request that sets no fields still refreshes
`updated_at` (strictly, the clock having advanced) and persists; every
other field is unchanged, so an empty partial update is not a no-op. -/
theorem claim10_empty_update (st : TaskStore) (now task_id : Nat)
    (t : Task) (hget : get_task st task_id = some t)
    (hclock : t.updated_at < now) :
    ∃ r st2,
      update_task st now task_id ⟨none, none, none, none, none⟩ =
        (some r, st2) ∧
      r.updated_at = now ∧ t.updated_at < r.updated_at ∧
      r.id = t.id ∧ r.title = t.title ∧ r.description = t.description ∧
      r.completed = t.completed ∧ r.priority = t.priority ∧
      r.due_date = t.due_date ∧ r.created_at = t.created_at ∧
      get_task st2 task_id = some r := by
  refine ⟨applyUpdate ⟨none, none, none, none, none⟩ t now, _,
    update_task_found st now task_id t _ hget, rfl, hclock, rfl, rfl, rfl,
    rfl, rfl, rfl, rfl, ?_⟩
  apply get_task_storeReplace
  · exact get_task_id st task_id t hget
  · rw [hget]
    rfl

/-- C10 witness: the empty update against the concrete row at time 4. -/
theorem claim10_witness :
    ∃ r st2,
      update_task storeW 4 1 ⟨none, none, none, none, none⟩ =
        (some r, st2) ∧
      r.updated_at = 4 ∧ taskW.updated_at < r.updated_at ∧
      r.id = taskW.id ∧ r.title = taskW.title ∧
      r.description = taskW.description ∧
      r.completed = taskW.completed ∧ r.priority = taskW.priority ∧
      r.due_date = taskW.due_date ∧ r.created_at = taskW.created_at ∧
      get_task st2 1 = some r :=
  claim10_empty_update storeW 4 1 taskW rfl (by decide)

end Todo
